import Mathlib

/-!
Shallow embedding of the webhook-ingestion backend (FastAPI + aiosqlite +
hand-rolled metrics registry) and proofs about the frozen behavioural claims.

Conventions of the embedding:
* Python `str` values are Lean `String`s; where an ordering or a character
  scan matters we work on `String.data : List Char` and compare characters
  by code point, which models SQLite's BINARY collation on the UTF-8 TEXT
  columns and Python's `str` comparison on the header values used here.
* Python `datetime` values only ever reach the persistence and query layer
  through `datetime.isoformat()`, so timestamps are carried as their
  ISO-8601 strings.
* Python `bytes` bodies are `List Nat`.
* Python `float` metric latencies are `Rat` (exact; no observation in the
  modelled paths depends on floating-point rounding), and the counter /
  bucket values, which are only ever incremented by `1.0`, are `Nat`.
* The SQLite `messages` table (one `PRIMARY KEY` column `message_id`,
  see `Storage.init_db`) is a `List MessageRow` in insertion order; the
  `INSERT` raising `IntegrityError` on a duplicate key is the key test in
  `insert_message`.
* `hmac.new(secret.encode(), body, hashlib.sha256).hexdigest()` is a
  Python-stdlib call, external to this repository; it enters the model as
  an explicit function parameter `hmacHex : String → List Nat → String`.
-/

/-! ### Character-list comparisons (SQLite BINARY collation / Python str order) -/

/-- Strict code-point comparison of two characters. -/
def charLtB (a b : Char) : Bool := a.toNat < b.toNat

/-- Lexicographic strict order on character lists (byte order of the
UTF-8 TEXT values stored by SQLite). -/
def listLtB : List Char → List Char → Bool
  | [], [] => false
  | [], _ :: _ => true
  | _ :: _, [] => false
  | a :: as, b :: bs => charLtB a b || (a == b && listLtB as bs)

/-- `a < b` on strings, via their character lists. -/
def strLtB (a b : String) : Bool := listLtB a.data b.data

/-- `a ≤ b` on strings, as the negation of `b < a` (total order). -/
def strLeB (a b : String) : Bool := !(strLtB b a)

theorem listLtB_irrefl : ∀ a, listLtB a a = false := by
  intro a
  induction a with
  | nil => rfl
  | cons x xs ih => simp [listLtB, charLtB, ih]

theorem listLtB_trans : ∀ a b c, listLtB a b → listLtB b c → listLtB a c := by
  intro a
  induction a with
  | nil =>
    intro b c hab hbc
    cases b <;> cases c <;> simp_all [listLtB]
  | cons x xs ih =>
    intro b c hab hbc
    cases b with
    | nil => simp [listLtB] at hab
    | cons y ys =>
      cases c with
      | nil => simp [listLtB] at hbc
      | cons z zs =>
        simp only [listLtB, Bool.or_eq_true, Bool.and_eq_true, beq_iff_eq] at *
        rcases hab with h1 | ⟨rfl, h2⟩ <;> rcases hbc with h3 | ⟨rfl, h4⟩
        · exact Or.inl (by simp [charLtB] at *; omega)
        · exact Or.inl h1
        · exact Or.inl h3
        · exact Or.inr ⟨rfl, ih _ _ h2 h4⟩

theorem listLtB_total : ∀ a b, listLtB a b ∨ a = b ∨ listLtB b a := by
  intro a
  induction a with
  | nil => intro b; cases b <;> simp [listLtB]
  | cons x xs ih =>
    intro b
    cases b with
    | nil => simp [listLtB]
    | cons y ys =>
      rcases Nat.lt_trichotomy x.toNat y.toNat with h | h | h
      · exact Or.inl (by simp [listLtB, charLtB, h])
      · have hxy : x = y := Char.ext (by simpa [Char.toNat, UInt32.ext_iff] using h)
        subst hxy
        rcases ih ys with h2 | h2 | h2
        · exact Or.inl (by simp [listLtB, h2])
        · exact Or.inr (Or.inl (by rw [h2]))
        · exact Or.inr (Or.inr (by simp [listLtB, h2]))
      · exact Or.inr (Or.inr (by simp [listLtB, charLtB, h]))

theorem listLtB_asymm {a b : List Char} (h : listLtB a b = true) :
    listLtB b a = false := by
  by_contra hc
  have hba : listLtB b a = true := by
    cases hcase : listLtB b a
    · exact absurd hcase hc
    · rfl
  have := listLtB_trans a b a h hba
  simp [listLtB_irrefl] at this

theorem strLeB_iff {a b : String} :
    strLeB a b = true ↔ (listLtB a.data b.data = true ∨ a = b) := by
  constructor
  · intro h
    rcases listLtB_total a.data b.data with h1 | h1 | h1
    · exact Or.inl h1
    · exact Or.inr (String.ext h1)
    · simp [strLeB, strLtB, h1] at h
  · intro h
    rcases h with h | rfl
    · simp [strLeB, strLtB, listLtB_asymm h]
    · simp [strLeB, strLtB, listLtB_irrefl]

theorem strLeB_refl (a : String) : strLeB a a = true :=
  strLeB_iff.mpr (Or.inr rfl)

theorem strLeB_total (a b : String) : strLeB a b || strLeB b a := by
  rcases listLtB_total a.data b.data with h | h | h
  · simp [strLeB_iff.mpr (Or.inl h)]
  · simp [strLeB_iff.mpr (Or.inr (String.ext h))]
  · have hba : strLeB b a = true := strLeB_iff.mpr (Or.inl h)
    simp [hba]

theorem strLeB_trans {a b c : String} (h1 : strLeB a b = true)
    (h2 : strLeB b c = true) : strLeB a c = true := by
  rcases strLeB_iff.mp h1 with h1 | rfl
  · rcases strLeB_iff.mp h2 with h2 | rfl
    · exact strLeB_iff.mpr (Or.inl (listLtB_trans _ _ _ h1 h2))
    · exact strLeB_iff.mpr (Or.inl h1)
  · exact h2

theorem strLeB_antisymm {a b : String} (h1 : strLeB a b = true)
    (h2 : strLeB b a = true) : a = b := by
  rcases strLeB_iff.mp h1 with h1 | rfl
  · rcases strLeB_iff.mp h2 with h2 | rfl
    · exact absurd h2 (by simp [listLtB_asymm h1])
    · rfl
  · rfl

/-! ### MessageStore (src/app/storage.py) -/

/-- One row of the SQLite `messages` table created by `Storage.init_db`:
`message_id TEXT PRIMARY KEY, from_msisdn TEXT NOT NULL, to_msisdn TEXT
NOT NULL, ts TEXT NOT NULL, text TEXT, created_at TEXT NOT NULL`. -/
structure MessageRow where
  message_id : String
  from_msisdn : String
  to_msisdn : String
  ts : String
  text : Option String
  created_at : String
deriving DecidableEq, Repr

/-- `Storage.insert_message` (storage.py:47-65): a plain SQL `INSERT`;
the `PRIMARY KEY` on `message_id` makes SQLite raise `IntegrityError`
("UNIQUE constraint failed") when the key is already present, which the
method turns into the return value `False` with the table untouched.
Returns the new table state together with the inserted/duplicate flag
(`True` = inserted). `ts_str` is `ts.isoformat()`, `now` is
`datetime.now(timezone.utc).isoformat()` computed by the caller's clock. -/
def insert_message (db : List MessageRow) (message_id sender receiver ts_str : String)
    (text : Option String) (now : String) : List MessageRow × Bool :=
  if db.any (fun r => r.message_id == message_id) then
    (db, false)
  else
    (db ++ [⟨message_id, sender, receiver, ts_str, text, now⟩], true)

/-! ### SQLite `LIKE` and the query filter (src/app/storage.py, query_messages) -/

/-- ASCII lower-casing, the case folding SQLite's default `LIKE` applies
(only the 26 ASCII letters fold; everything else compares verbatim). -/
def asciiLower (c : Char) : Char :=
  if 65 ≤ c.toNat && c.toNat ≤ 90 then Char.ofNat (c.toNat + 32) else c

/-- All suffixes of a character list, longest first (the original list
itself down to `[]`). -/
def suffixes : List Char → List (List Char)
  | [] => [[]]
  | c :: s => (c :: s) :: suffixes s

/-- SQLite's default `LIKE` operator: `%` matches any character sequence,
`_` matches exactly one character, and ordinary characters match ASCII
case-insensitively (`%` may consume any prefix, i.e. the rest of the
pattern must match some suffix). No `ESCAPE` clause is used by the
repository. -/
def likeMatch : List Char → List Char → Bool
  | [], s => s.isEmpty
  | '%' :: ps, s => (suffixes s).any (fun t => likeMatch ps t)
  | '_' :: ps, s =>
    match s with
    | [] => false
    | _ :: s' => likeMatch ps s'
  | p :: ps, s =>
    match s with
    | [] => false
    | c :: s' => (asciiLower p == asciiLower c) && likeMatch ps s'

/-- The `if from_filter:` block of `Storage.query_messages`
(storage.py:72-74): the SQL clause `from_msisdn = ?` is appended only
when `from_filter` is Python-truthy, so `None` and the empty string both
leave the clause out (every row passes). -/
def from_clause (from_filter : Option String) (r : MessageRow) : Bool :=
  match from_filter with
  | none => true
  | some f => if f = "" then true else r.from_msisdn == f

/-- The `if since:` block of `Storage.query_messages` (storage.py:76-78):
the SQL clause `ts >= ?` compares the stored ISO string against
`since.isoformat()` under TEXT (byte) ordering. `since` is a `datetime`,
which is always truthy, so only `None` omits the clause. -/
def since_clause (since : Option String) (r : MessageRow) : Bool :=
  match since with
  | none => true
  | some s => strLeB s r.ts

/-- The `if q:` block of `Storage.query_messages` (storage.py:80-82):
the SQL clause `text LIKE ?` with pattern `f"%{q}%"` is appended only
when `q` is truthy (non-`None`, non-empty); a SQL `NULL` text never
satisfies `LIKE`. -/
def q_clause (q : Option String) (r : MessageRow) : Bool :=
  match q with
  | none => true
  | some qq =>
    if qq = "" then true
    else
      match r.text with
      | none => false
      | some t => likeMatch ('%' :: (qq.data ++ ['%'])) t.data

/-- The full `WHERE` clause assembled by `Storage.query_messages`
(storage.py:70-82): `WHERE 1=1 AND ...` with the three optional clauses
conjoined. -/
def row_matches (from_filter since q : Option String) (r : MessageRow) : Bool :=
  from_clause from_filter r && since_clause since r && q_clause q r

/-- The `ORDER BY ts ASC, message_id ASC` sort key of
`Storage.query_messages` (storage.py:91): lexicographic on the pair
(timestamp string, message_id string). -/
def rowLeB (a b : MessageRow) : Bool :=
  strLtB a.ts b.ts || (a.ts == b.ts && strLeB a.message_id b.message_id)

/-- Insertion of an element into a list assumed sorted under `le`. -/
def orderedInsertB {α : Type} (le : α → α → Bool) (a : α) : List α → List α
  | [] => [a]
  | b :: l => if le a b then a :: b :: l else b :: orderedInsertB le a l

/-- Insertion sort under a Boolean relation; realises the SQL
`ORDER BY` (SQL promises a result sorted under the key, which any
comparison sort realises). -/
def insertionSortB {α : Type} (le : α → α → Bool) : List α → List α
  | [] => []
  | a :: l => orderedInsertB le a (insertionSortB le l)

/-- `Storage.query_messages` (storage.py:67-107): one `SELECT COUNT(*)`
over the `WHERE` clause gives `total`, and the page is the matching rows
sorted by `ORDER BY ts ASC, message_id ASC` with `LIMIT ? OFFSET ?`
applied (SQL applies the offset before the limit).  The Python code then
re-labels the columns into a dict; the field renaming (`from_msisdn` →
`"from"`, `to_msisdn` → `"to"`) is a bijective re-packaging and is left
out, the page consists of the rows themselves. -/
def query_messages (db : List MessageRow) (limit offset : Nat)
    (from_filter since q : Option String) : List MessageRow × Nat :=
  let matched := db.filter (row_matches from_filter since q)
  let total := matched.length
  let data := ((insertionSortB rowLeB matched).drop offset).take limit
  (data, total)

theorem mem_orderedInsertB {α : Type} (le : α → α → Bool) (a x : α) (l : List α) :
    x ∈ orderedInsertB le a l ↔ x = a ∨ x ∈ l := by
  induction l with
  | nil => simp [orderedInsertB]
  | cons b l ih =>
    by_cases h : le a b = true
    · simp [orderedInsertB, h]
    · simp only [orderedInsertB, if_neg h, List.mem_cons, ih]
      tauto

theorem mem_insertionSortB {α : Type} (le : α → α → Bool) (x : α) (l : List α) :
    x ∈ insertionSortB le l ↔ x ∈ l := by
  induction l with
  | nil => simp [insertionSortB]
  | cons a l ih => simp [insertionSortB, mem_orderedInsertB, ih]

theorem pairwise_orderedInsertB {α : Type} (le : α → α → Bool)
    (htrans : ∀ a b c, le a b = true → le b c = true → le a c = true)
    (htotal : ∀ a b, (le a b || le b a) = true) (a : α) (l : List α)
    (hl : List.Pairwise (fun x y => le x y = true) l) :
    List.Pairwise (fun x y => le x y = true) (orderedInsertB le a l) := by
  induction l with
  | nil => simp [orderedInsertB]
  | cons b l ih =>
    rcases List.pairwise_cons.mp hl with ⟨hb, hl'⟩
    by_cases h : le a b = true
    · rw [orderedInsertB, if_pos h]
      refine List.pairwise_cons.mpr ⟨?_, hl⟩
      intro x hx
      rcases List.mem_cons.mp hx with rfl | hx
      · exact h
      · exact htrans a b x h (hb x hx)
    · have hba : le b a = true := by
        rcases Bool.or_eq_true _ _ |>.mp (htotal a b) with h1 | h1
        · exact absurd h1 h
        · exact h1
      rw [orderedInsertB, if_neg h]
      refine List.pairwise_cons.mpr ⟨?_, ih hl'⟩
      intro x hx
      rcases (mem_orderedInsertB le a x l).mp hx with rfl | hx
      · exact hba
      · exact hb x hx

theorem pairwise_insertionSortB {α : Type} (le : α → α → Bool)
    (htrans : ∀ a b c, le a b = true → le b c = true → le a c = true)
    (htotal : ∀ a b, (le a b || le b a) = true) (l : List α) :
    List.Pairwise (fun x y => le x y = true) (insertionSortB le l) := by
  induction l with
  | nil => simp [insertionSortB]
  | cons a l ih =>
    exact pairwise_orderedInsertB le htrans htotal a _ ih

theorem rowLeB_total (a b : MessageRow) : rowLeB a b || rowLeB b a := by
  rcases listLtB_total a.ts.data b.ts.data with h | h | h
  · simp [rowLeB, strLtB, h]
  · have hts : a.ts = b.ts := String.ext h
    rcases Bool.or_eq_true _ _ |>.mp (strLeB_total a.message_id b.message_id) with h2 | h2
    · simp [rowLeB, hts, h2]
    · simp [rowLeB, hts, h2]
  · simp [rowLeB, strLtB, h]

theorem rowLeB_trans (a b c : MessageRow) (h1 : rowLeB a b = true)
    (h2 : rowLeB b c = true) : rowLeB a c = true := by
  simp only [rowLeB, Bool.or_eq_true, Bool.and_eq_true, beq_iff_eq, strLtB] at *
  rcases h1 with h1 | ⟨hts1, h1⟩ <;> rcases h2 with h2 | ⟨hts2, h2⟩
  · exact Or.inl (listLtB_trans _ _ _ h1 h2)
  · exact Or.inl (hts2 ▸ h1)
  · exact Or.inl (hts1 ▸ h2)
  · exact Or.inr ⟨hts1.trans hts2, strLeB_trans h1 h2⟩

theorem rowLeB_antisymm_key (a b : MessageRow) (h1 : rowLeB a b = true)
    (h2 : rowLeB b a = true) : a.ts = b.ts ∧ a.message_id = b.message_id := by
  simp only [rowLeB, Bool.or_eq_true, Bool.and_eq_true, beq_iff_eq, strLtB] at *
  rcases h1 with h1 | ⟨hts1, h1⟩
  · rcases h2 with h2 | ⟨hts2, h2⟩
    · exact absurd h2 (by simp [listLtB_asymm h1])
    · exact absurd h1 (by simp [hts2, listLtB_irrefl])
  · rcases h2 with h2 | ⟨hts2, h2⟩
    · exact absurd h2 (by simp [hts1, listLtB_irrefl])
    · exact ⟨hts1, strLeB_antisymm h1 h2⟩

theorem from_clause_iff (from_filter : Option String) (r : MessageRow) :
    from_clause from_filter r = true ↔
      ∀ f, from_filter = some f → f ≠ "" → r.from_msisdn = f := by
  rcases from_filter with _ | f
  · simp [from_clause]
  · by_cases hf : f = "" <;> simp [from_clause, hf]

theorem since_clause_iff (since : Option String) (r : MessageRow) :
    since_clause since r = true ↔
      ∀ s, since = some s → strLeB s r.ts = true := by
  rcases since with _ | s <;> simp [since_clause]

theorem q_clause_iff (q : Option String) (r : MessageRow) :
    q_clause q r = true ↔
      ∀ qq, q = some qq → qq ≠ "" →
        ∃ t, r.text = some t ∧ likeMatch ('%' :: (qq.data ++ ['%'])) t.data = true := by
  rcases q with _ | qq
  · simp [q_clause]
  · by_cases hq : qq = ""
    · simp [q_clause, hq]
    · rcases ht : r.text with _ | t <;> simp [q_clause, hq, ht]

theorem row_matches_iff (from_filter since q : Option String) (r : MessageRow) :
    row_matches from_filter since q r = true ↔
      ((∀ f, from_filter = some f → f ≠ "" → r.from_msisdn = f) ∧
       (∀ s, since = some s → strLeB s r.ts = true) ∧
       (∀ qq, q = some qq → qq ≠ "" →
          ∃ t, r.text = some t ∧ likeMatch ('%' :: (qq.data ++ ['%'])) t.data = true)) := by
  rw [row_matches, Bool.and_eq_true, Bool.and_eq_true,
    from_clause_iff, since_clause_iff, q_clause_iff, and_assoc]

/-! ### Spec-side definition used for the C4 comparison -/

/-- Modelled from the spec: "text contains textContains as a
case-sensitive substring" — contiguous containment with no case
folding. Used only to compare the spec's wording against the code's
`LIKE`-based filter. -/
def spec_contains_case_sensitive (needle hay : String) : Bool :=
  (suffixes hay.data).any (fun t => needle.data.isPrefixOf t)

/-! ### Claim C1 -/

/-- C1: a second `insert_message` call with an already-stored
`message_id` returns the duplicate flag (`False`), returns the table
completely unchanged (hence creates no new row and mutates no field of
any existing row), and the row stored under that `message_id` carries
exactly the fields written by the first successful insert. -/
theorem insert_message_duplicate_preserves_row
    (db : List MessageRow) (mid s r ts : String) (txt : Option String) (now : String)
    (s' r' ts' : String) (txt' : Option String) (now' : String)
    (h : (insert_message db mid s r ts txt now).2 = true) :
    insert_message (insert_message db mid s r ts txt now).1 mid s' r' ts' txt' now'
      = ((insert_message db mid s r ts txt now).1, false) ∧
    (insert_message db mid s r ts txt now).1.find? (fun row => row.message_id == mid)
      = some ⟨mid, s, r, ts, txt, now⟩ := by
  by_cases hany : db.any (fun row => row.message_id == mid) = true
  · simp [insert_message, hany] at h
  · have hany' : db.any (fun row => row.message_id == mid) = false := by
      cases hcase : db.any (fun row => row.message_id == mid)
      · rfl
      · exact absurd hcase hany
    have hfst : (insert_message db mid s r ts txt now).1
        = db ++ [⟨mid, s, r, ts, txt, now⟩] := by
      simp [insert_message, hany']
    constructor
    · rw [hfst]
      have hmem : (db ++ [(⟨mid, s, r, ts, txt, now⟩ : MessageRow)]).any
          (fun row => row.message_id == mid) = true := by
        simp [List.any_append]
      simp [insert_message, hmem]
    · rw [hfst, List.find?_append]
      have hnone : db.find? (fun row => row.message_id == mid) = none := by
        rw [List.find?_eq_none]
        intro x hx
        have := (List.any_eq_false).mp hany' x hx
        simpa using this
      simp [hnone]

/-- Witness for C1: concrete first insert into the empty store, then a
duplicate insert with different field values. -/
theorem insert_message_duplicate_preserves_row_witness :
    (insert_message [] "m1" "+111" "+999" "2025-01-15T10:00:00+00:00"
        (some "Hello") "t0").2 = true ∧
    (insert_message (insert_message [] "m1" "+111" "+999" "2025-01-15T10:00:00+00:00"
          (some "Hello") "t0").1 "m1" "+222" "+888" "2026-01-01T00:00:00+00:00" none "t1"
        = ((insert_message [] "m1" "+111" "+999" "2025-01-15T10:00:00+00:00"
            (some "Hello") "t0").1, false) ∧
      (insert_message [] "m1" "+111" "+999" "2025-01-15T10:00:00+00:00"
          (some "Hello") "t0").1.find? (fun row => row.message_id == "m1")
        = some ⟨"m1", "+111", "+999", "2025-01-15T10:00:00+00:00", some "Hello", "t0"⟩) :=
  ⟨by decide,
   insert_message_duplicate_preserves_row [] "m1" "+111" "+999"
     "2025-01-15T10:00:00+00:00" (some "Hello") "t0" "+222" "+888"
     "2026-01-01T00:00:00+00:00" none "t1" (by decide)⟩

/-! ### Claim C4 -/

/-- C4 counterexample: the claim says the text filter is a
*case-sensitive* substring test, but the code uses SQLite `LIKE`, which
folds ASCII case.  With one stored row whose text is `"Hello"` and the
filter `q = "hello"`, the query returns the row even though `"hello"` is
not a case-sensitive substring of `"Hello"`. -/
theorem query_text_filter_case_insensitive_counterexample :
    (query_messages [⟨"m1", "+111", "+999", "2025-01-01T00:00:00+00:00",
        some "Hello", "t0"⟩] 50 0 none none (some "hello")).1
      = [⟨"m1", "+111", "+999", "2025-01-01T00:00:00+00:00", some "Hello", "t0"⟩] ∧
    spec_contains_case_sensitive "hello" "Hello" = false := by
  decide

/-- C4 (amended): the supplied filters are applied conjunctively — a row
is in the matched set iff it is stored and satisfies every supplied
filter — where (per the code) a supplied *empty-string* `senderFilter`
or `textContains` is ignored, the timestamp comparison is TEXT ordering
on the ISO strings, and the text condition is SQLite `LIKE '%q%'`
(ASCII case-insensitive, with `%`/`_` in `textContains` acting as
wildcards) rather than a case-sensitive substring test; every row of
the returned page belongs to the matched set. -/
theorem query_filters_conjunctive
    (db : List MessageRow) (limit offset : Nat)
    (from_filter since q : Option String) (r : MessageRow) :
    (r ∈ (query_messages db limit offset from_filter since q).1 →
       r ∈ db ∧ row_matches from_filter since q r = true) ∧
    (r ∈ db.filter (row_matches from_filter since q) ↔
      (r ∈ db ∧
       (∀ f, from_filter = some f → f ≠ "" → r.from_msisdn = f) ∧
       (∀ s, since = some s → strLeB s r.ts = true) ∧
       (∀ qq, q = some qq → qq ≠ "" →
          ∃ t, r.text = some t ∧
            likeMatch ('%' :: (qq.data ++ ['%'])) t.data = true))) := by
  constructor
  · intro hmem
    have h1 : r ∈ insertionSortB rowLeB (db.filter (row_matches from_filter since q)) :=
      List.mem_of_mem_drop (List.mem_of_mem_take hmem)
    have h2 : r ∈ db.filter (row_matches from_filter since q) :=
      (mem_insertionSortB rowLeB r _).mp h1
    exact ⟨(List.mem_filter.mp h2).1, (List.mem_filter.mp h2).2⟩
  · rw [List.mem_filter, row_matches_iff]

/-- Witness for the hypothesis-free part of C4 is not needed; this
closed corollary exercises the iff at a concrete input anyway. -/
theorem query_filters_conjunctive_witness :
    ((⟨"m1", "+111", "+999", "2025-01-01T00:00:00+00:00", some "Hello", "t0"⟩ : MessageRow)
        ∈ (query_messages [⟨"m1", "+111", "+999", "2025-01-01T00:00:00+00:00",
            some "Hello", "t0"⟩] 50 0 (some "+111") none (some "hello")).1 →
      (⟨"m1", "+111", "+999", "2025-01-01T00:00:00+00:00", some "Hello", "t0"⟩ : MessageRow)
          ∈ [⟨"m1", "+111", "+999", "2025-01-01T00:00:00+00:00", some "Hello", "t0"⟩]
        ∧ row_matches (some "+111") none (some "hello")
            ⟨"m1", "+111", "+999", "2025-01-01T00:00:00+00:00", some "Hello", "t0"⟩ = true) ∧
    ((⟨"m1", "+111", "+999", "2025-01-01T00:00:00+00:00", some "Hello", "t0"⟩ : MessageRow)
        ∈ List.filter (row_matches (some "+111") none (some "hello"))
            [⟨"m1", "+111", "+999", "2025-01-01T00:00:00+00:00", some "Hello", "t0"⟩] ↔
      ((⟨"m1", "+111", "+999", "2025-01-01T00:00:00+00:00", some "Hello", "t0"⟩ : MessageRow)
          ∈ [⟨"m1", "+111", "+999", "2025-01-01T00:00:00+00:00", some "Hello", "t0"⟩] ∧
       (∀ f, (some "+111" : Option String) = some f → f ≠ "" →
          (⟨"m1", "+111", "+999", "2025-01-01T00:00:00+00:00", some "Hello", "t0"⟩ :
            MessageRow).from_msisdn = f) ∧
       (∀ s, (none : Option String) = some s → strLeB s
          (⟨"m1", "+111", "+999", "2025-01-01T00:00:00+00:00", some "Hello", "t0"⟩ :
            MessageRow).ts = true) ∧
       (∀ qq, (some "hello" : Option String) = some qq → qq ≠ "" →
          ∃ t, (⟨"m1", "+111", "+999", "2025-01-01T00:00:00+00:00", some "Hello", "t0"⟩ :
              MessageRow).text = some t ∧
            likeMatch ('%' :: (qq.data ++ ['%'])) t.data = true))) :=
  query_filters_conjunctive
    [⟨"m1", "+111", "+999", "2025-01-01T00:00:00+00:00", some "Hello", "t0"⟩]
    50 0 (some "+111") none (some "hello")
    ⟨"m1", "+111", "+999", "2025-01-01T00:00:00+00:00", some "Hello", "t0"⟩

/-! ### Claim C5 -/

/-- C5: the returned page is sorted ascending by timestamp with ties
broken ascending by `message_id`; that key order is total, and
antisymmetric on the (timestamp, message_id) sort key, hence a
deterministic total order on rows with distinct `message_id`s; and the
returned `total` is the number of rows matching the same filter
predicate, with `limit` and `offset` not occurring in it at all. -/
theorem query_ordering_and_total
    (db : List MessageRow) (limit offset : Nat)
    (from_filter since q : Option String) :
    List.Pairwise (fun a b => rowLeB a b = true)
      (query_messages db limit offset from_filter since q).1 ∧
    (query_messages db limit offset from_filter since q).2
      = (db.filter (row_matches from_filter since q)).length ∧
    (∀ a b : MessageRow, rowLeB a b || rowLeB b a) ∧
    (∀ a b : MessageRow, rowLeB a b = true → rowLeB b a = true →
       a.ts = b.ts ∧ a.message_id = b.message_id) := by
  refine ⟨?_, rfl, rowLeB_total, rowLeB_antisymm_key⟩
  have hsorted : List.Pairwise (fun a b => rowLeB a b = true)
      (insertionSortB rowLeB (db.filter (row_matches from_filter since q))) :=
    pairwise_insertionSortB rowLeB rowLeB_trans rowLeB_total _
  exact List.Pairwise.sublist
    ((List.take_sublist _ _).trans (List.drop_sublist _ _)) hsorted

/-! ### SignatureGate (src/app/main.py, verify_signature) -/

/-- A FastAPI `HTTPException(status_code=..., detail=...)`. -/
structure HttpError where
  status_code : Nat
  detail : String
deriving DecidableEq, Repr

/-- Python `str.split("=")`: splits at every `=`, keeping empty fields
(`"".split("=") == [""]`, `"a=".split("=") == ["a", ""]`). -/
def split_on_eq : List Char → List (List Char)
  | [] => [[]]
  | c :: rest =>
    if c = '=' then [] :: split_on_eq rest
    else
      match split_on_eq rest with
      | [] => [[c]]
      | h :: t => (c :: h) :: t

/-- The literal scheme tag tested by `signature.startswith("sha256=")`
(main.py:63). -/
def sha256_tag : List Char := "sha256=".data

/-- main.py:62-64: `sig_hash = signature`, overwritten with
`signature.split("=")[1]` exactly when the header starts with
`"sha256="` — i.e. the field between the first and the second `=`
(for a well-formed `sha256=<hex>` header that is the whole digest,
hex never containing `=`).  The `[1]` index is always in range because
the tag itself contains one `=`; the model's `getD` default is dead. -/
def extract_sig_hash (signature : List Char) : List Char :=
  if sha256_tag.isPrefixOf signature then (split_on_eq signature).getD 1 []
  else signature

/-- `hmac.compare_digest(sig_hash, expected_hash)` (main.py:74): a
timing-safe comparison whose value is plain equality of the two
strings; the timing aspect has no counterpart in this embedding. -/
def compare_digest (a b : List Char) : Bool := a == b

/-- main.py:43: `request.headers.get("X-Signature") or
request.headers.get("X-Hub-Signature-256")` — Python `or` falls through
when the first header is falsy (absent or the empty string). -/
def pick_signature (xsig xhub : Option String) : Option String :=
  match xsig with
  | some s => if s = "" then xhub else some s
  | none => xhub

/-- `verify_signature` (main.py:36-75): 503 `Server configuration
error` when the secret is unset/empty; 401 `invalid signature` when the
picked header value is falsy (`if not signature`); otherwise the digest
extracted from the header is compared (via `hmac.compare_digest`)
against the hex HMAC-SHA256 digest of the raw request body under the
secret.  The stdlib call `hmac.new(secret.encode(), body,
hashlib.sha256).hexdigest()` is the parameter `hmacHex`. -/
def verify_signature (hmacHex : String → List Nat → String) (secret : String)
    (xsig xhub : Option String) (body : List Nat) : Except HttpError Unit :=
  if secret = "" then Except.error ⟨503, "Server configuration error"⟩
  else
    match pick_signature xsig xhub with
    | none => Except.error ⟨401, "invalid signature"⟩
    | some signature =>
      if signature = "" then Except.error ⟨401, "invalid signature"⟩
      else
        let sig_hash := extract_sig_hash signature.data
        let expected_hash := hmacHex secret body
        if compare_digest sig_hash expected_hash.data then Except.ok ()
        else Except.error ⟨401, "invalid signature"⟩

instance {ε α : Type} [DecidableEq ε] [DecidableEq α] : DecidableEq (Except ε α) :=
  fun a b =>
    match a, b with
    | .ok x, .ok y =>
      if h : x = y then isTrue (by rw [h])
      else isFalse (by intro hc; injection hc; exact h (by assumption))
    | .error x, .error y =>
      if h : x = y then isTrue (by rw [h])
      else isFalse (by intro hc; injection hc; exact h (by assumption))
    | .ok _, .error _ => isFalse (fun hc => Except.noConfusion hc)
    | .error _, .ok _ => isFalse (fun hc => Except.noConfusion hc)

theorem split_on_eq_no_eq : ∀ (l : List Char), l.contains '=' = false →
    split_on_eq l = [l] := by
  intro l
  induction l with
  | nil => intro _; rfl
  | cons c rest ih =>
    intro h
    simp only [List.contains_cons, Bool.or_eq_false_iff] at h
    have hc : ¬ c = '=' := by
      intro hc
      subst hc
      simp at h
    rw [split_on_eq, if_neg hc, ih h.2]

theorem split_on_eq_sha256_tag (rest : List Char) (h : rest.contains '=' = false) :
    split_on_eq (sha256_tag ++ rest) = ["sha256".data, rest] := by
  have h1 : split_on_eq rest = [rest] := split_on_eq_no_eq rest h
  show split_on_eq ('s' :: 'h' :: 'a' :: '2' :: '5' :: '6' :: '=' :: rest)
      = [['s','h','a','2','5','6'], rest]
  simp [split_on_eq, h1]

/-! ### Claim C3 -/

/-- C3 counterexample: the claim promises that *any* scheme tag followed
by `=` is accepted with the substring after the first `=` compared as
the digest.  With the (modelled) digest function returning `"ab"`, the
header `"sha1=ab"` carries exactly the expected digest after its first
`=` (the tag `"sha1"` contains no `=`), and a bare `"ab"` header indeed
verifies — yet the prefixed header is rejected, because the code only
strips the literal `"sha256="` tag and otherwise compares the whole
header string, tag included. -/
theorem verify_signature_scheme_tag_counterexample :
    verify_signature (fun _ _ => "ab") "k" (some "sha1=ab") none []
      = Except.error ⟨401, "invalid signature"⟩ ∧
    ("sha1=ab" : String) = "sha1" ++ "=" ++ "ab" ∧
    ("sha1".data.contains '=') = false ∧
    verify_signature (fun _ _ => "ab") "k" (some "ab") none []
      = Except.ok () := by
  decide

/-- C3 (amended): a provided signature is accepted as a bare digest
compared verbatim whenever it does not start with the literal tag
`"sha256="`; only that one scheme tag is recognised, and when it is
present the digest compared is `split("=")[1]` — the substring between
the first and the second `=`, which is all of the remainder exactly
when the remainder contains no further `=`.  Signatures carrying any
other scheme tag are compared whole, tag included. -/
theorem verify_signature_digest_extraction
    (hmacHex : String → List Nat → String) (secret s : String) (body : List Nat)
    (hsec : secret ≠ "") (hs : s ≠ "") :
    (verify_signature hmacHex secret (some s) none body = Except.ok () ↔
       extract_sig_hash s.data = (hmacHex secret body).data) ∧
    (sha256_tag.isPrefixOf s.data = false → extract_sig_hash s.data = s.data) ∧
    (∀ rest : List Char, rest.contains '=' = false →
       extract_sig_hash (sha256_tag ++ rest) = rest) := by
  refine ⟨?_, ?_, ?_⟩
  · simp only [verify_signature, pick_signature, if_neg hsec, if_neg hs, compare_digest]
    by_cases h : extract_sig_hash s.data = (hmacHex secret body).data <;>
      simp [h]
  · intro h
    simp [extract_sig_hash, h]
  · intro rest h
    have hpre : sha256_tag.isPrefixOf (sha256_tag ++ rest) = true :=
      List.isPrefixOf_iff_prefix.mpr (List.prefix_append _ _)
    rw [extract_sig_hash, if_pos hpre, split_on_eq_sha256_tag rest h]
    rfl

/-- Witness for C3 (amended) at a concrete input. -/
theorem verify_signature_digest_extraction_witness :
    ("k" : String) ≠ "" ∧ ("sha256=ab" : String) ≠ "" ∧
    ((verify_signature (fun _ _ => "ab") "k" (some "sha256=ab") none [] = Except.ok () ↔
        extract_sig_hash "sha256=ab".data = ("ab" : String).data) ∧
     (sha256_tag.isPrefixOf "sha256=ab".data = false →
        extract_sig_hash "sha256=ab".data = "sha256=ab".data) ∧
     (∀ rest : List Char, rest.contains '=' = false →
        extract_sig_hash (sha256_tag ++ rest) = rest)) :=
  ⟨by decide, by decide,
   verify_signature_digest_extraction (fun _ _ => "ab") "k" "sha256=ab" []
     (by decide) (by decide)⟩

/-! ### Claim C2 (supporting lemma only)

The first half of the sign/verify round-trip holds for any digest
function whose output is non-empty and does not itself start with the
`"sha256="` tag (true of every lowercase-hex digest).  The second half
of C2 — that altering any single body byte makes verification fail —
is exactly the statement that HMAC-SHA256 has no collisions between
bodies at Hamming distance one, a cryptographic conjecture that is
neither provable nor refutable here; C2 is therefore left unresolved. -/

theorem verify_signature_roundtrip
    (hmacHex : String → List Nat → String) (secret : String) (body : List Nat)
    (hsec : secret ≠ "") (hne : hmacHex secret body ≠ "")
    (htag : sha256_tag.isPrefixOf (hmacHex secret body).data = false) :
    verify_signature hmacHex secret (some (hmacHex secret body)) none body
      = Except.ok () := by
  simp [verify_signature, pick_signature, if_neg hsec, if_neg hne,
    compare_digest, extract_sig_hash, htag]

/-! ### MetricsRegistry (src/app/metrics.py) -/

/-- A metric series identity `(metric_name, frozenset(labels.items()))`
(metrics.py:10-16).  A `frozenset` is an unordered set of pairs; it is
represented canonically by its list of pairs sorted in Python tuple
order, so that equal label sets coincide. -/
abbrev SeriesKey := String × List (String × String)

/-- Python tuple comparison on `(key, value)` string pairs: key first,
value breaks ties. -/
def pairLeB (a b : String × String) : Bool :=
  strLtB a.1 b.1 || (a.1 == b.1 && strLeB a.2 b.2)

/-- `Metrics._get_label_key` (metrics.py:28-29): `frozenset(labels.items())`
in its canonical sorted-list representation (which is also exactly what
`sorted(label_key)` yields wherever the rendering code iterates it). -/
def get_label_key (labels : List (String × String)) : List (String × String) :=
  insertionSortB pairLeB labels

/-- Python `dict.get(k)` on an insertion-ordered mapping. -/
def assocGet {ν : Type} (m : List (SeriesKey × ν)) (k : SeriesKey) : Option ν :=
  match m with
  | [] => none
  | (k', v) :: rest => if k' = k then some v else assocGet rest k

/-- Python `d[k] = v`: updates in place, appends when the key is new. -/
def assocSet {ν : Type} (m : List (SeriesKey × ν)) (k : SeriesKey) (v : ν) :
    List (SeriesKey × ν) :=
  match m with
  | [] => [(k, v)]
  | (k', v') :: rest =>
    if k' = k then (k, v) :: rest else (k', v') :: assocSet rest k v

/-- `Metrics.latency_buckets` (metrics.py:14): histogram upper bounds. -/
def latency_buckets : List Rat := [10, 50, 100, 200, 500, 1000, 5000]

/-- The `Metrics` singleton's mutable state (metrics.py:8-18):
insertion-ordered dicts from series key to counter value, bucket-count
list (one slot per bound plus the trailing `+Inf` slot), running sum,
and running observation count. -/
structure Metrics where
  counters : List (SeriesKey × Nat)
  histograms : List (SeriesKey × List Nat)
  histogram_sums : List (SeriesKey × Rat)
  histogram_counts : List (SeriesKey × Nat)
deriving DecidableEq, Repr

/-- The freshly constructed registry (`Metrics.__init__`). -/
def initial_metrics : Metrics := ⟨[], [], [], []⟩

/-- The loop `for i, le in enumerate(self.latency_buckets): if
latency_ms <= le: self.histograms[hist_key][i] += 1.0`
(metrics.py:48-50): one slot per bound, surplus slots untouched. -/
def bump_upto (latency : Rat) : List Rat → List Nat → List Nat
  | [], bs => bs
  | _ :: _, [] => []
  | le :: ls, b :: bs => (if latency ≤ le then b + 1 else b) :: bump_upto latency ls bs

/-- `self.histograms[hist_key][-1] += 1.0` (metrics.py:52): the final
(`+Inf`) slot increments unconditionally. -/
def bump_last : List Nat → List Nat
  | [] => []
  | [b] => [b + 1]
  | b :: bs => b :: bump_last bs

/-- The whole bucket update of one observation (metrics.py:48-52). -/
def bump_buckets (latency : Rat) (bounds : List Rat) (buckets : List Nat) :
    List Nat :=
  bump_last (bump_upto latency bounds buckets)

/-- The `if hist_key not in self.histograms:` block of
`Metrics.record_http_request` (metrics.py:43-46): lazily create the
series with zeroed buckets (one slot per bound plus the `+Inf` slot),
zero sum, and zero count. -/
def init_hist_if_absent (m : Metrics) (hist_key : SeriesKey) : Metrics :=
  match assocGet m.histograms hist_key with
  | some _ => m
  | none =>
    { m with
      histograms := assocSet m.histograms hist_key
        (List.replicate (latency_buckets.length + 1) 0),
      histogram_sums := assocSet m.histogram_sums hist_key 0,
      histogram_counts := assocSet m.histogram_counts hist_key 0 }

/-- The histogram-update tail of `Metrics.record_http_request`
(metrics.py:43-55): lazy init, bucket bumps, `+Inf` bump, sum and count
updates for one observed latency. -/
def observe_latency (m : Metrics) (hist_key : SeriesKey) (latency_ms : Rat) :
    Metrics :=
  let m1 := init_hist_if_absent m hist_key
  { m1 with
    histograms := assocSet m1.histograms hist_key
      (bump_buckets latency_ms latency_buckets
        ((assocGet m1.histograms hist_key).getD [])),
    histogram_sums := assocSet m1.histogram_sums hist_key
      ((assocGet m1.histogram_sums hist_key).getD 0 + latency_ms),
    histogram_counts := assocSet m1.histogram_counts hist_key
      ((assocGet m1.histogram_counts hist_key).getD 0 + 1) }

/-- `Metrics.record_http_request` (metrics.py:31-55): bump the
`http_requests_total` counter for `(path, status)` and record the
latency into the `request_latency_ms` histogram series for the same
label set. -/
def record_http_request (m : Metrics) (path : String) (status : Nat)
    (latency_ms : Rat) : Metrics :=
  let label_key := get_label_key [("path", path), ("status", toString status)]
  let key : SeriesKey := ("http_requests_total", label_key)
  let counters := assocSet m.counters key ((assocGet m.counters key).getD 0 + 1)
  observe_latency { m with counters := counters }
    ("request_latency_ms", label_key) latency_ms

/-- `Metrics.record_webhook_result` (metrics.py:57-62): bump the
`webhook_requests_total` counter for the `result` label. -/
def record_webhook_result (m : Metrics) (result : String) : Metrics :=
  let key : SeriesKey := ("webhook_requests_total", get_label_key [("result", result)])
  { m with counters := assocSet m.counters key ((assocGet m.counters key).getD 0 + 1) }

/-- One `k="v"` label pair as rendered by the f-string
`f'\x7bk\x7d="\x7bv\x7d"'` (metrics.py:70). -/
def render_pair (p : String × String) : String := p.1 ++ "=\"" ++ p.2 ++ "\""

/-- The counter label block (metrics.py:68-71): empty for an empty label
set, otherwise the sorted pairs joined by `,` inside braces. -/
def counter_label_str (label_key : List (String × String)) : String :=
  if label_key.isEmpty then ""
  else "\x7b" ++ String.intercalate "," ((insertionSortB pairLeB label_key).map render_pair) ++ "\x7d"

/-- The lines rendered for one histogram series (metrics.py:75-91):
per-bound `_bucket` lines (index `i` pairs bound `i` with bucket `i`),
the `+Inf` bucket from the final slot, then `_sum` and `_count`.
`base_label_str.rstrip(",")` is carried as the pre-comma string. -/
def hist_lines (name : String) (label_key : List (String × String))
    (buckets : List Nat) (hsum : Rat) (hcount : Nat) : List String :=
  let base0 := String.intercalate "," ((insertionSortB pairLeB label_key).map render_pair)
  let base_label_str := if base0 = "" then base0 else base0 ++ ","
  let label_section := if base0 = "" then "" else "\x7b" ++ base0 ++ "\x7d"
  ((latency_buckets.zip buckets).map (fun p =>
      name ++ "_bucket\x7b" ++ base_label_str ++ "le=\"" ++ toString p.1
        ++ "\"\x7d " ++ toString p.2))
  ++ [name ++ "_bucket\x7b" ++ base_label_str ++ "le=\"+Inf\"\x7d "
        ++ toString (buckets.getLastD 0)]
  ++ [name ++ "_sum" ++ label_section ++ " " ++ toString hsum,
      name ++ "_count" ++ label_section ++ " " ++ toString hcount]

/-- `Metrics.render_metrics` (metrics.py:64-92): counter lines in dict
insertion order, then histogram series in dict insertion order, joined
by newlines with a trailing newline.  Numeric formatting differs
textually from Python (`1` vs `1.0`); no claim depends on it. -/
def render_metrics (m : Metrics) : String :=
  let counter_lines := m.counters.map (fun p =>
    p.1.1 ++ counter_label_str p.1.2 ++ " " ++ toString p.2)
  let histogram_lines := m.histograms.foldr (fun p acc =>
    hist_lines p.1.1 p.1.2 p.2
      ((assocGet m.histogram_sums p.1).getD 0)
      ((assocGet m.histogram_counts p.1).getD 0) ++ acc) []
  String.intercalate "\n" (counter_lines ++ histogram_lines) ++ "\n"

/-- The registry operations the application performs (the middleware's
`record_http_request` and the webhook handler's `record_webhook_result`;
main.py / logging_utils.py). -/
inductive MetricOp where
  | http (path : String) (status : Nat) (latency_ms : Rat)
  | webhook (result : String)

/-- Apply one operation to the registry. -/
def apply_op (m : Metrics) : MetricOp → Metrics
  | .http path status latency_ms => record_http_request m path status latency_ms
  | .webhook result => record_webhook_result m result

/-- Registry state after a sequence of operations from process start. -/
def run_ops (ops : List MetricOp) : Metrics := ops.foldl apply_op initial_metrics

theorem assocGet_assocSet_self {ν : Type} (m : List (SeriesKey × ν))
    (k : SeriesKey) (v : ν) : assocGet (assocSet m k v) k = some v := by
  induction m with
  | nil => simp [assocGet, assocSet]
  | cons p rest ih =>
    obtain ⟨k', v'⟩ := p
    by_cases h : k' = k
    · simp [assocSet, assocGet, h]
    · simp [assocSet, assocGet, h, ih]

theorem assocGet_assocSet_ne {ν : Type} (m : List (SeriesKey × ν))
    (k k' : SeriesKey) (v : ν) (h : k' ≠ k) :
    assocGet (assocSet m k v) k' = assocGet m k' := by
  induction m with
  | nil => simp [assocGet, assocSet, Ne.symm h]
  | cons p rest ih =>
    obtain ⟨k'', v''⟩ := p
    by_cases h2 : k'' = k
    · subst h2
      simp [assocSet, assocGet, Ne.symm h]
    · simp only [assocSet, if_neg h2, assocGet]
      by_cases h3 : k'' = k'
      · simp [h3]
      · simp [h3, ih]

theorem bump_upto_length (latency : Rat) :
    ∀ (ls : List Rat) (bs : List Nat),
      (bump_upto latency ls bs).length = bs.length := by
  intro ls
  induction ls with
  | nil => intro bs; rfl
  | cons le ls ih =>
    intro bs
    cases bs with
    | nil => rfl
    | cons b bs => simp [bump_upto, ih]

theorem bump_last_length : ∀ (bs : List Nat), (bump_last bs).length = bs.length := by
  intro bs
  induction bs with
  | nil => rfl
  | cons b bs ih =>
    cases bs with
    | nil => rfl
    | cons b2 bs2 => simpa [bump_last] using ih

theorem bump_upto_getLast (latency : Rat) :
    ∀ (ls : List Rat) (bs : List Nat), ls.length < bs.length →
      (bump_upto latency ls bs).getLast? = bs.getLast? := by
  intro ls
  induction ls with
  | nil => intro bs _; rfl
  | cons le ls ih =>
    intro bs hlen
    cases bs with
    | nil => simp at hlen
    | cons b bs =>
      simp only [List.length_cons, Nat.add_lt_add_iff_right] at hlen
      have hne : bump_upto latency ls bs ≠ [] := by
        intro hc
        have := bump_upto_length latency ls bs
        rw [hc] at this
        simp at this
        omega
      rw [bump_upto]
      rcases hrest : bump_upto latency ls bs with _ | ⟨x, xs⟩
      · exact absurd hrest hne
      · rw [List.getLast?_cons_cons, ← hrest, ih bs hlen]
        cases bs with
        | nil => simp at hlen
        | cons b2 bs2 => rw [List.getLast?_cons_cons]

theorem bump_last_getLast :
    ∀ (bs : List Nat) (c : Nat), bs.getLast? = some c →
      (bump_last bs).getLast? = some (c + 1) := by
  intro bs
  induction bs with
  | nil => intro c hc; simp at hc
  | cons b bs ih =>
    intro c hc
    cases bs with
    | nil =>
      simp at hc
      subst hc
      rfl
    | cons b2 bs2 =>
      rw [List.getLast?_cons_cons] at hc
      show (b :: bump_last (b2 :: bs2)).getLast? = some (c + 1)
      have h2 := ih c hc
      rcases hrest : bump_last (b2 :: bs2) with _ | ⟨x, xs⟩
      · have := bump_last_length (b2 :: bs2)
        rw [hrest] at this
        simp at this
      · rw [List.getLast?_cons_cons, ← hrest, h2]

theorem bump_buckets_cons (lat le : Rat) (ls : List Rat) (b : Nat)
    (bs : List Nat) (hbs : bs ≠ []) :
    bump_buckets lat (le :: ls) (b :: bs)
      = (if lat ≤ le then b + 1 else b) :: bump_buckets lat ls bs := by
  show bump_last ((if lat ≤ le then b + 1 else b) :: bump_upto lat ls bs)
      = (if lat ≤ le then b + 1 else b) :: bump_last (bump_upto lat ls bs)
  rcases hrest : bump_upto lat ls bs with _ | ⟨x, xs⟩
  · exfalso
    apply hbs
    have hl := bump_upto_length lat ls bs
    rw [hrest] at hl
    exact List.length_eq_zero.mp hl.symm
  · rfl

theorem bump_buckets_chain (lat : Rat) :
    ∀ (bounds : List Rat) (buckets : List Nat),
      List.Chain' (· ≤ ·) bounds →
      buckets.length = bounds.length + 1 →
      List.Chain' (· ≤ ·) buckets →
      List.Chain' (· ≤ ·) (bump_buckets lat bounds buckets) ∧
      (bump_buckets lat bounds buckets).head? = buckets.head?.map
        (fun b => b + (match bounds with
          | [] => 1
          | le :: _ => if lat ≤ le then 1 else 0)) := by
  intro bounds
  induction bounds with
  | nil =>
    intro buckets _ hlen _
    rcases buckets with _ | ⟨b, bs⟩
    · simp at hlen
    · rcases bs with _ | ⟨b2, bs2⟩
      · exact ⟨by simp [bump_buckets, bump_upto, bump_last], rfl⟩
      · simp at hlen
  | cons le ls ih =>
    intro buckets hb hlen hchain
    rcases buckets with _ | ⟨b, bs⟩
    · simp at hlen
    · rcases bs with _ | ⟨b2, bs2⟩
      · simp only [List.length_cons, List.length_nil] at hlen
        omega
      · have hbs : (b2 :: bs2) ≠ [] := by simp
        have hlen2 : (b2 :: bs2).length = ls.length + 1 := by simpa using hlen
        have hchain2 : List.Chain' (· ≤ ·) (b2 :: bs2) :=
          (List.chain'_cons'.mp hchain).2
        have hb2 : List.Chain' (· ≤ ·) ls := (List.chain'_cons'.mp hb).2
        obtain ⟨ihchain, ihhead⟩ := ih (b2 :: bs2) hb2 hlen2 hchain2
        have hbb2 : b ≤ b2 := by
          have := (List.chain'_cons'.mp hchain).1
          simpa using this
        rw [bump_buckets_cons lat le ls b (b2 :: bs2) hbs]
        constructor
        · refine List.chain'_cons'.mpr ⟨?_, ihchain⟩
          intro y hy
          rw [ihhead] at hy
          simp only [List.head?_cons, Option.map, Option.mem_def,
            Option.some.injEq] at hy
          subst hy
          by_cases hle : lat ≤ le
          · rcases ls with _ | ⟨le2, ls2⟩
            · show (if lat ≤ le then b + 1 else b) ≤ b2 + 1
              simp only [if_pos hle]
              omega
            · have hlele2 : le ≤ le2 := by
                have := (List.chain'_cons'.mp hb).1
                simpa using this
              have hlat2 : lat ≤ le2 := le_trans hle hlele2
              show (if lat ≤ le then b + 1 else b) ≤ b2 + if lat ≤ le2 then 1 else 0
              simp only [if_pos hle, if_pos hlat2]
              omega
          · simp only [if_neg hle]
            rcases ls with _ | ⟨le2, ls2⟩
            · show b ≤ b2 + 1
              omega
            · show b ≤ b2 + if lat ≤ le2 then 1 else 0
              by_cases h2 : lat ≤ le2 <;> simp only [if_pos, if_neg, h2] <;> omega
        · show ((if lat ≤ le then b + 1 else b) :: bump_buckets lat ls (b2 :: bs2)).head?
              = some (b + if lat ≤ le then 1 else 0)
          by_cases hle : lat ≤ le <;> simp [hle]

/-- The histogram shape/cumulativity invariant maintained by the
registry: every histogram series has one slot per bound plus the `+Inf`
slot, non-decreasing slot values in bound order, and a final (`+Inf`)
slot equal to the series' running observation count. -/
def HistWF (m : Metrics) : Prop :=
  ∀ k buckets, assocGet m.histograms k = some buckets →
    buckets.length = latency_buckets.length + 1 ∧
    List.Chain' (· ≤ ·) buckets ∧
    buckets.getLast? = some ((assocGet m.histogram_counts k).getD 0)

theorem chain'_latency_buckets : List.Chain' (· ≤ ·) latency_buckets := by
  norm_num [latency_buckets, List.chain'_cons]

theorem chain'_le_replicate (n x : Nat) :
    List.Chain' (· ≤ ·) (List.replicate n x) := by
  induction n with
  | zero => simp
  | succ n ih =>
    rw [List.replicate_succ]
    cases n with
    | zero => simp
    | succ m =>
      rw [List.replicate_succ]
      refine List.chain'_cons.mpr ⟨le_refl x, ?_⟩
      rw [← List.replicate_succ]
      exact ih

theorem getLast_replicate_succ (n x : Nat) :
    (List.replicate (n + 1) x).getLast? = some x := by
  induction n with
  | zero => rfl
  | succ m ih =>
    rw [List.replicate_succ, List.replicate_succ]
    rw [List.getLast?_cons_cons, ← List.replicate_succ]
    exact ih

theorem init_hist_if_absent_of_present (m : Metrics) (hk : SeriesKey)
    (b0 : List Nat) (h : assocGet m.histograms hk = some b0) :
    init_hist_if_absent m hk = m := by
  unfold init_hist_if_absent
  rw [h]

theorem init_hist_if_absent_of_absent (m : Metrics) (hk : SeriesKey)
    (h : assocGet m.histograms hk = none) :
    init_hist_if_absent m hk =
      { m with
        histograms := assocSet m.histograms hk
          (List.replicate (latency_buckets.length + 1) 0),
        histogram_sums := assocSet m.histogram_sums hk 0,
        histogram_counts := assocSet m.histogram_counts hk 0 } := by
  unfold init_hist_if_absent
  rw [h]

theorem HistWF_init_hist_if_absent (m : Metrics) (hk : SeriesKey)
    (hwf : HistWF m) : HistWF (init_hist_if_absent m hk) := by
  rcases hpres : assocGet m.histograms hk with _ | b0
  · rw [init_hist_if_absent_of_absent m hk hpres]
    intro k buckets hget
    dsimp only at hget ⊢
    by_cases hkk : k = hk
    · subst hkk
      rw [assocGet_assocSet_self] at hget
      injection hget with hget
      subst hget
      rw [assocGet_assocSet_self]
      refine ⟨by simp, chain'_le_replicate _ _, ?_⟩
      simp only [Option.getD_some]
      exact getLast_replicate_succ _ _
    · rw [assocGet_assocSet_ne _ _ _ _ hkk] at hget
      rw [assocGet_assocSet_ne _ _ _ _ hkk]
      exact hwf k buckets hget
  · rw [init_hist_if_absent_of_present m hk b0 hpres]
    exact hwf

theorem init_hist_if_absent_present (m : Metrics) (hk : SeriesKey) :
    ∃ b, assocGet (init_hist_if_absent m hk).histograms hk = some b := by
  rcases hpres : assocGet m.histograms hk with _ | b0
  · rw [init_hist_if_absent_of_absent m hk hpres]
    exact ⟨_, assocGet_assocSet_self _ _ _⟩
  · rw [init_hist_if_absent_of_present m hk b0 hpres]
    exact ⟨b0, hpres⟩

theorem HistWF_observe_latency (m : Metrics) (hk : SeriesKey) (lat : Rat)
    (hwf : HistWF m) : HistWF (observe_latency m hk lat) := by
  have hwf1 : HistWF (init_hist_if_absent m hk) :=
    HistWF_init_hist_if_absent m hk hwf
  obtain ⟨b1, hb1⟩ := init_hist_if_absent_present m hk
  obtain ⟨hlen1, hchain1, hlast1⟩ := hwf1 hk b1 hb1
  intro k buckets hget
  unfold observe_latency at hget ⊢
  dsimp only at hget ⊢
  rw [hb1] at hget
  simp only [Option.getD_some] at hget
  by_cases hkk : k = hk
  · subst hkk
    rw [assocGet_assocSet_self] at hget
    injection hget with hget
    subst hget
    rw [assocGet_assocSet_self]
    simp only [Option.getD_some]
    obtain ⟨hchain2, _⟩ :=
      bump_buckets_chain lat latency_buckets b1 chain'_latency_buckets hlen1 hchain1
    refine ⟨?_, hchain2, ?_⟩
    · show (bump_last (bump_upto lat latency_buckets b1)).length
          = latency_buckets.length + 1
      rw [bump_last_length, bump_upto_length, hlen1]
    · show (bump_last (bump_upto lat latency_buckets b1)).getLast?
          = some ((assocGet (init_hist_if_absent m k).histogram_counts k).getD 0 + 1)
      have hup : (bump_upto lat latency_buckets b1).getLast? = b1.getLast? := by
        apply bump_upto_getLast
        omega
      exact bump_last_getLast _ _ (hup.trans hlast1)
  · rw [assocGet_assocSet_ne _ _ _ _ hkk] at hget
    rw [assocGet_assocSet_ne _ _ _ _ hkk]
    exact hwf1 k buckets hget

theorem HistWF_record_http_request (m : Metrics) (path : String)
    (status : Nat) (lat : Rat) (hwf : HistWF m) :
    HistWF (record_http_request m path status lat) :=
  HistWF_observe_latency _ _ _ (fun k b hget => hwf k b hget)

theorem HistWF_apply_op (m : Metrics) (op : MetricOp) (hwf : HistWF m) :
    HistWF (apply_op m op) := by
  cases op with
  | http path status lat => exact HistWF_record_http_request m path status lat hwf
  | webhook r => exact fun k b hget => hwf k b hget

theorem HistWF_run_ops (ops : List MetricOp) : HistWF (run_ops ops) := by
  have h : ∀ m, HistWF m → HistWF (ops.foldl apply_op m) := by
    induction ops with
    | nil => exact fun m hm => hm
    | cons op ops ih =>
      intro m hm
      exact ih (apply_op m op) (HistWF_apply_op m op hm)
  apply h
  intro k b hget
  simp [initial_metrics, assocGet] at hget

/-! ### Claim C8 -/

/-- C8: after any sequence of recorded operations from process start,
every histogram series has non-decreasing bucket counts in bucket-bound
order, and its final (`+Inf`) bucket equals the series' running
observation count. -/
theorem histogram_buckets_cumulative (ops : List MetricOp) (k : SeriesKey)
    (buckets : List Nat)
    (h : assocGet (run_ops ops).histograms k = some buckets) :
    List.Chain' (· ≤ ·) buckets ∧
    buckets.getLast? = some ((assocGet (run_ops ops).histogram_counts k).getD 0) := by
  obtain ⟨_, h2, h3⟩ := HistWF_run_ops ops k buckets h
  exact ⟨h2, h3⟩

/-- Witness for C8: one observation of 42 ms on `/webhook`, status 200. -/
theorem histogram_buckets_cumulative_witness :
    assocGet (run_ops [MetricOp.http "/webhook" 200 42]).histograms
        ("request_latency_ms", [("path", "/webhook"), ("status", "200")])
      = some [0, 1, 1, 1, 1, 1, 1, 1] ∧
    (List.Chain' (· ≤ ·) ([0, 1, 1, 1, 1, 1, 1, 1] : List Nat) ∧
     ([0, 1, 1, 1, 1, 1, 1, 1] : List Nat).getLast?
       = some ((assocGet (run_ops [MetricOp.http "/webhook" 200 42]).histogram_counts
           ("request_latency_ms", [("path", "/webhook"), ("status", "200")])).getD 0)) :=
  ⟨by decide,
   histogram_buckets_cumulative [MetricOp.http "/webhook" 200 42]
     ("request_latency_ms", [("path", "/webhook"), ("status", "200")])
     [0, 1, 1, 1, 1, 1, 1, 1] (by decide)⟩

/-! ### Claim C9 -/

theorem pairLeB_total (a b : String × String) : pairLeB a b || pairLeB b a := by
  rcases listLtB_total a.1.data b.1.data with h | h | h
  · simp [pairLeB, strLtB, h]
  · have hk : a.1 = b.1 := String.ext h
    rcases Bool.or_eq_true _ _ |>.mp (strLeB_total a.2 b.2) with h2 | h2
    · simp [pairLeB, hk, h2]
    · simp [pairLeB, hk, h2]
  · simp [pairLeB, strLtB, h]

theorem pairLeB_trans (a b c : String × String) (h1 : pairLeB a b = true)
    (h2 : pairLeB b c = true) : pairLeB a c = true := by
  simp only [pairLeB, Bool.or_eq_true, Bool.and_eq_true, beq_iff_eq, strLtB] at *
  rcases h1 with h1 | ⟨hk1, h1⟩ <;> rcases h2 with h2 | ⟨hk2, h2⟩
  · exact Or.inl (listLtB_trans _ _ _ h1 h2)
  · exact Or.inl (hk2 ▸ h1)
  · exact Or.inl (hk1 ▸ h2)
  · exact Or.inr ⟨hk1.trans hk2, strLeB_trans h1 h2⟩

theorem pairLeB_key_le {a b : String × String} (h : pairLeB a b = true) :
    strLeB a.1 b.1 = true := by
  simp only [pairLeB, Bool.or_eq_true, Bool.and_eq_true, beq_iff_eq] at h
  rcases h with h | ⟨h, _⟩
  · exact strLeB_iff.mpr (Or.inl h)
  · rw [h]
    exact strLeB_refl _

/-- C9: `render_metrics` is a pure function of the registry state, so
two renders with no intervening counter or histogram mutation are
byte-identical; and the per-line label serialization order — the
`insertionSortB pairLeB` sort that `counter_label_str` and `hist_lines`
apply, the model of Python's `sorted(label_key)` — lists label pairs in
non-decreasing key order. -/
theorem render_metrics_stable_and_sorted (m : Metrics) :
    render_metrics m = render_metrics m ∧
    ∀ labels : List (String × String),
      List.Pairwise (fun a b : String × String => strLeB a.1 b.1 = true)
        (insertionSortB pairLeB labels) := by
  refine ⟨rfl, ?_⟩
  intro labels
  exact (pairwise_insertionSortB pairLeB pairLeB_trans pairLeB_total labels).imp
    (fun hab => pairLeB_key_le hab)

/-! ### IngestionPipeline (src/app/main.py webhook, src/app/logging_utils.py) -/

/-- The validated webhook payload (`WebhookMessageIn`, models.py:6-31).
Schema validation happens in the HTTP collaborator before the handler
runs; `ts` is carried as its `isoformat()` string. -/
structure WebhookMessageIn where
  message_id : String
  sender : String
  receiver : String
  ts : String
  text : Option String
deriving DecidableEq, Repr

/-- `WebhookResponse` (models.py:33-34): the success body, which the
handler always constructs as `{"status": "ok"}`. -/
structure WebhookResponse where
  status : String
deriving DecidableEq, Repr

/-- The application state the webhook path touches: the SQLite table
and the metrics registry. -/
structure AppState where
  db : List MessageRow
  metrics : Metrics
deriving DecidableEq, Repr

/-- The `/webhook` handler `webhook` (main.py:80-106): verify the
signature first (an `HTTPException` propagates, with no store write and
no webhook metric), then perform the idempotent insert, record the
webhook result — `"duplicate"` when the insert reported a duplicate,
`"success"` otherwise — and return `WebhookResponse(status="ok")` in
both cases. -/
def webhook_endpoint (hmacHex : String → List Nat → String) (secret : String)
    (xsig xhub : Option String) (body : List Nat) (payload : WebhookMessageIn)
    (now : String) (st : AppState) : AppState × Except HttpError WebhookResponse :=
  match verify_signature hmacHex secret xsig xhub body with
  | Except.error e => (st, Except.error e)
  | Except.ok _ =>
    let res := insert_message st.db payload.message_id payload.sender
      payload.receiver payload.ts payload.text now
    let is_dup := !res.2
    let metrics2 := record_webhook_result st.metrics
      (if is_dup then "duplicate" else "success")
    (⟨res.1, metrics2⟩, Except.ok ⟨"ok"⟩)

/-- `RequestLogMiddleware.dispatch` (logging_utils.py:44-82) around the
webhook route: FastAPI turns a raised `HTTPException` into an error
response carrying its status before the middleware's `finally` block
runs, so the middleware records `http_requests_total` and the latency
histogram for `("/webhook", status)` with status 200 on success and the
exception's status otherwise.  Returns the final state, the status
code, and the success body when there is one. -/
def handle_webhook_request (hmacHex : String → List Nat → String)
    (secret : String) (xsig xhub : Option String) (body : List Nat)
    (payload : WebhookMessageIn) (now : String) (latency_ms : Rat)
    (st : AppState) : AppState × Nat × Option WebhookResponse :=
  let res := webhook_endpoint hmacHex secret xsig xhub body payload now st
  match res.2 with
  | Except.ok resp =>
    (⟨res.1.db, record_http_request res.1.metrics "/webhook" 200 latency_ms⟩,
      200, some resp)
  | Except.error e =>
    (⟨res.1.db, record_http_request res.1.metrics "/webhook" e.status_code latency_ms⟩,
      e.status_code, none)

/-- The stored value of a counter series (an absent series counts as 0,
matching `self.counters.get(key, 0.0)`). -/
def counter_value (m : Metrics) (k : SeriesKey) : Nat :=
  (assocGet m.counters k).getD 0

theorem observe_latency_counters (m : Metrics) (hk : SeriesKey) (lat : Rat) :
    (observe_latency m hk lat).counters = m.counters := by
  unfold observe_latency init_hist_if_absent
  rcases hpres : assocGet m.histograms hk with _ | b0 <;> rfl

theorem record_http_request_counter (m : Metrics) (path : String)
    (status : Nat) (lat : Rat) :
    counter_value (record_http_request m path status lat)
        ("http_requests_total", get_label_key [("path", path), ("status", toString status)])
      = counter_value m
          ("http_requests_total", get_label_key [("path", path), ("status", toString status)])
        + 1 := by
  unfold record_http_request counter_value
  rw [observe_latency_counters]
  dsimp only
  rw [assocGet_assocSet_self]
  rfl

theorem record_webhook_result_counter (m : Metrics) (r : String) :
    counter_value (record_webhook_result m r)
        ("webhook_requests_total", get_label_key [("result", r)])
      = counter_value m ("webhook_requests_total", get_label_key [("result", r)]) + 1 := by
  unfold record_webhook_result counter_value
  dsimp only
  rw [assocGet_assocSet_self]
  rfl

theorem record_webhook_result_counter_other (m : Metrics) (r : String)
    (k : SeriesKey) (hk : k ≠ ("webhook_requests_total", get_label_key [("result", r)])) :
    counter_value (record_webhook_result m r) k = counter_value m k := by
  unfold record_webhook_result counter_value
  dsimp only
  rw [assocGet_assocSet_ne _ _ _ _ hk]

theorem webhook_endpoint_duplicate (hmacHex : String → List Nat → String)
    (secret : String) (xsig xhub : Option String) (body : List Nat)
    (payload : WebhookMessageIn) (now : String) (st : AppState)
    (h : verify_signature hmacHex secret xsig xhub body = Except.ok ())
    (hany : st.db.any (fun r => r.message_id == payload.message_id) = true) :
    webhook_endpoint hmacHex secret xsig xhub body payload now st
      = (⟨st.db, record_webhook_result st.metrics "duplicate"⟩, Except.ok ⟨"ok"⟩) := by
  unfold webhook_endpoint
  rw [h]
  dsimp only
  unfold insert_message
  rw [if_pos hany]
  rfl

theorem webhook_endpoint_inserted (hmacHex : String → List Nat → String)
    (secret : String) (xsig xhub : Option String) (body : List Nat)
    (payload : WebhookMessageIn) (now : String) (st : AppState)
    (h : verify_signature hmacHex secret xsig xhub body = Except.ok ())
    (hany : st.db.any (fun r => r.message_id == payload.message_id) = false) :
    webhook_endpoint hmacHex secret xsig xhub body payload now st
      = (⟨st.db ++ [⟨payload.message_id, payload.sender, payload.receiver,
            payload.ts, payload.text, now⟩],
          record_webhook_result st.metrics "success"⟩, Except.ok ⟨"ok"⟩) := by
  unfold webhook_endpoint
  rw [h]
  dsimp only
  unfold insert_message
  rw [if_neg (by simp [hany])]
  rfl

/-! ### Claim C6 -/

/-- C6: when signature verification succeeds, the handler returns the
identical success body `{"status": "ok"}` whether the insert was fresh
or a duplicate, while the registry records the two outcomes distinctly:
`webhook_requests_total{result="duplicate"}` increments exactly when the
`message_id` was already stored, `webhook_requests_total{result="success"}`
exactly when it was not, the other counter staying untouched. -/
theorem webhook_idempotent_response_distinct_metrics
    (hmacHex : String → List Nat → String) (secret : String)
    (xsig xhub : Option String) (body : List Nat) (payload : WebhookMessageIn)
    (now : String) (st : AppState)
    (h : verify_signature hmacHex secret xsig xhub body = Except.ok ()) :
    (webhook_endpoint hmacHex secret xsig xhub body payload now st).2
      = Except.ok ⟨"ok"⟩ ∧
    (st.db.any (fun r => r.message_id == payload.message_id) = true →
       counter_value (webhook_endpoint hmacHex secret xsig xhub body payload now st).1.metrics
           ("webhook_requests_total", get_label_key [("result", "duplicate")])
         = counter_value st.metrics
             ("webhook_requests_total", get_label_key [("result", "duplicate")]) + 1 ∧
       counter_value (webhook_endpoint hmacHex secret xsig xhub body payload now st).1.metrics
           ("webhook_requests_total", get_label_key [("result", "success")])
         = counter_value st.metrics
             ("webhook_requests_total", get_label_key [("result", "success")])) ∧
    (st.db.any (fun r => r.message_id == payload.message_id) = false →
       counter_value (webhook_endpoint hmacHex secret xsig xhub body payload now st).1.metrics
           ("webhook_requests_total", get_label_key [("result", "success")])
         = counter_value st.metrics
             ("webhook_requests_total", get_label_key [("result", "success")]) + 1 ∧
       counter_value (webhook_endpoint hmacHex secret xsig xhub body payload now st).1.metrics
           ("webhook_requests_total", get_label_key [("result", "duplicate")])
         = counter_value st.metrics
             ("webhook_requests_total", get_label_key [("result", "duplicate")])) := by
  by_cases hany : st.db.any (fun r => r.message_id == payload.message_id) = true
  · rw [webhook_endpoint_duplicate hmacHex secret xsig xhub body payload now st h hany]
    refine ⟨rfl, ?_, ?_⟩
    · intro _
      exact ⟨record_webhook_result_counter st.metrics "duplicate",
        record_webhook_result_counter_other st.metrics "duplicate" _ (by decide)⟩
    · intro hfalse
      rw [hany] at hfalse
      exact absurd hfalse (by simp)
  · have hany' : st.db.any (fun r => r.message_id == payload.message_id) = false := by
      cases hc : st.db.any (fun r => r.message_id == payload.message_id)
      · rfl
      · exact absurd hc hany
    rw [webhook_endpoint_inserted hmacHex secret xsig xhub body payload now st h hany']
    refine ⟨rfl, ?_, ?_⟩
    · intro htrue
      exact absurd htrue hany
    · intro _
      exact ⟨record_webhook_result_counter st.metrics "success",
        record_webhook_result_counter_other st.metrics "success" _ (by decide)⟩

/-- Witness for C6: fresh store, valid signature, first delivery. -/
theorem webhook_idempotent_response_distinct_metrics_witness :
    verify_signature (fun _ _ => "ab") "k" (some "ab") none [] = Except.ok () ∧
    ((webhook_endpoint (fun _ _ => "ab") "k" (some "ab") none []
        ⟨"m1", "+1", "+2", "2025-01-15T10:00:00+00:00", some "hi"⟩ "t0"
        ⟨[], initial_metrics⟩).2 = Except.ok ⟨"ok"⟩ ∧
     (([] : List MessageRow).any (fun r => r.message_id == "m1") = true →
        counter_value (webhook_endpoint (fun _ _ => "ab") "k" (some "ab") none []
            ⟨"m1", "+1", "+2", "2025-01-15T10:00:00+00:00", some "hi"⟩ "t0"
            ⟨[], initial_metrics⟩).1.metrics
            ("webhook_requests_total", get_label_key [("result", "duplicate")])
          = counter_value initial_metrics
              ("webhook_requests_total", get_label_key [("result", "duplicate")]) + 1 ∧
        counter_value (webhook_endpoint (fun _ _ => "ab") "k" (some "ab") none []
            ⟨"m1", "+1", "+2", "2025-01-15T10:00:00+00:00", some "hi"⟩ "t0"
            ⟨[], initial_metrics⟩).1.metrics
            ("webhook_requests_total", get_label_key [("result", "success")])
          = counter_value initial_metrics
              ("webhook_requests_total", get_label_key [("result", "success")])) ∧
     (([] : List MessageRow).any (fun r => r.message_id == "m1") = false →
        counter_value (webhook_endpoint (fun _ _ => "ab") "k" (some "ab") none []
            ⟨"m1", "+1", "+2", "2025-01-15T10:00:00+00:00", some "hi"⟩ "t0"
            ⟨[], initial_metrics⟩).1.metrics
            ("webhook_requests_total", get_label_key [("result", "success")])
          = counter_value initial_metrics
              ("webhook_requests_total", get_label_key [("result", "success")]) + 1 ∧
        counter_value (webhook_endpoint (fun _ _ => "ab") "k" (some "ab") none []
            ⟨"m1", "+1", "+2", "2025-01-15T10:00:00+00:00", some "hi"⟩ "t0"
            ⟨[], initial_metrics⟩).1.metrics
            ("webhook_requests_total", get_label_key [("result", "duplicate")])
          = counter_value initial_metrics
              ("webhook_requests_total", get_label_key [("result", "duplicate")]))) :=
  ⟨by decide,
   webhook_idempotent_response_distinct_metrics (fun _ _ => "ab") "k"
     (some "ab") none [] ⟨"m1", "+1", "+2", "2025-01-15T10:00:00+00:00", some "hi"⟩
     "t0" ⟨[], initial_metrics⟩ (by decide)⟩

/-! ### Claim C7 -/

theorem verify_signature_error_status (hmacHex : String → List Nat → String)
    (secret : String) (xsig xhub : Option String) (body : List Nat)
    (e : HttpError)
    (h : verify_signature hmacHex secret xsig xhub body = Except.error e) :
    e.status_code = 401 ∨ e.status_code = 503 := by
  unfold verify_signature at h
  split at h
  · injection h with h
    subst h
    right
    rfl
  · dsimp only at h
    split at h
    · injection h with h
      subst h
      left
      rfl
    · split at h
      · injection h with h
        subst h
        left
        rfl
      · split at h
        · exact absurd h (by simp)
        · injection h with h
          subst h
          left
          rfl

/-- C7: when signature verification fails for any reason (missing or
empty signature header, digest mismatch, or unset secret), the request
produces no success body — the caller sees the exception's 401 or 503
status — the message table is left exactly as it was, and the rejection
is recorded in the registry as an `http_requests_total` increment for
`("/webhook", status)`. -/
theorem webhook_rejection_no_insert
    (hmacHex : String → List Nat → String) (secret : String)
    (xsig xhub : Option String) (body : List Nat) (payload : WebhookMessageIn)
    (now : String) (latency_ms : Rat) (st : AppState) (e : HttpError)
    (h : verify_signature hmacHex secret xsig xhub body = Except.error e) :
    (handle_webhook_request hmacHex secret xsig xhub body payload now latency_ms st).2.2
      = none ∧
    (handle_webhook_request hmacHex secret xsig xhub body payload now latency_ms st).2.1
      = e.status_code ∧
    (e.status_code = 401 ∨ e.status_code = 503) ∧
    (handle_webhook_request hmacHex secret xsig xhub body payload now latency_ms st).1.db
      = st.db ∧
    counter_value
        (handle_webhook_request hmacHex secret xsig xhub body payload now latency_ms st).1.metrics
        ("http_requests_total",
          get_label_key [("path", "/webhook"), ("status", toString e.status_code)])
      = counter_value st.metrics
          ("http_requests_total",
            get_label_key [("path", "/webhook"), ("status", toString e.status_code)])
        + 1 := by
  have hhandle : handle_webhook_request hmacHex secret xsig xhub body payload now latency_ms st
      = (⟨st.db, record_http_request st.metrics "/webhook" e.status_code latency_ms⟩,
         e.status_code, none) := by
    unfold handle_webhook_request webhook_endpoint
    rw [h]
  rw [hhandle]
  exact ⟨rfl, rfl, verify_signature_error_status hmacHex secret xsig xhub body e h,
    rfl, record_http_request_counter st.metrics "/webhook" e.status_code latency_ms⟩

/-- Witness for C7: unset secret, so verification fails with 503. -/
theorem webhook_rejection_no_insert_witness :
    verify_signature (fun _ _ => "ab") "" (some "ab") none []
      = Except.error ⟨503, "Server configuration error"⟩ ∧
    ((handle_webhook_request (fun _ _ => "ab") "" (some "ab") none []
        ⟨"m1", "+1", "+2", "2025-01-15T10:00:00+00:00", some "hi"⟩ "t0" 5
        ⟨[], initial_metrics⟩).2.2 = none ∧
     (handle_webhook_request (fun _ _ => "ab") "" (some "ab") none []
        ⟨"m1", "+1", "+2", "2025-01-15T10:00:00+00:00", some "hi"⟩ "t0" 5
        ⟨[], initial_metrics⟩).2.1
       = (⟨503, "Server configuration error"⟩ : HttpError).status_code ∧
     ((⟨503, "Server configuration error"⟩ : HttpError).status_code = 401 ∨
      (⟨503, "Server configuration error"⟩ : HttpError).status_code = 503) ∧
     (handle_webhook_request (fun _ _ => "ab") "" (some "ab") none []
        ⟨"m1", "+1", "+2", "2025-01-15T10:00:00+00:00", some "hi"⟩ "t0" 5
        ⟨[], initial_metrics⟩).1.db = ([] : List MessageRow) ∧
     counter_value
         (handle_webhook_request (fun _ _ => "ab") "" (some "ab") none []
            ⟨"m1", "+1", "+2", "2025-01-15T10:00:00+00:00", some "hi"⟩ "t0" 5
            ⟨[], initial_metrics⟩).1.metrics
         ("http_requests_total",
           get_label_key [("path", "/webhook"),
             ("status", toString (⟨503, "Server configuration error"⟩ : HttpError).status_code)])
       = counter_value initial_metrics
           ("http_requests_total",
             get_label_key [("path", "/webhook"),
               ("status", toString (⟨503, "Server configuration error"⟩ : HttpError).status_code)])
         + 1) :=
  ⟨by decide,
   webhook_rejection_no_insert (fun _ _ => "ab") "" (some "ab") none []
     ⟨"m1", "+1", "+2", "2025-01-15T10:00:00+00:00", some "hi"⟩ "t0" 5
     ⟨[], initial_metrics⟩ ⟨503, "Server configuration error"⟩ (by decide)⟩
